import Mathlib

/-!
Verification of the promprint-data-wrangling date pipeline.

This file is a shallow embedding of the core date logic of the repository
(`src/lib/nls.py`): the date extractor (the regex
`(?:c(?:a\.?|irca|) ?(?P<circa_date>\d{4})|(?P<question_date>\d{4})\?|(?P<unqualified_date>\d{4}))`
applied with `str.extractall`, i.e. all non-overlapping leftmost matches),
the per-record date reducer inside `clean_nls_dates`, and the register
filter `filter_nls_date`.

Conventions of the embedding:
* Years captured by `\d{4}` are modelled as `Nat` (the Python code converts
  the captured 4-digit string to `float64`; a 4-digit value is represented
  exactly, so the ordering used by the reducer agrees with `Nat` order).
  Digits are modelled as ASCII digits, matching the inputs the pipeline sees.
* A dataframe is modelled as an association list from index labels (keys)
  to row values; `groupby(level=0)` over distinct index labels is the
  per-record grouping of the extracted matches.
* Missing values (`NaN`) are modelled as `none : Option _`.
* `filter_nls_date` works on float columns; its numeric values are modelled
  as `ℚ` and failure (a raised Python exception) as `Except.error`.
-/

namespace Promprint

/-- Classification of one regex match: which named capture group fired. -/
inductive DateClass where
  | circa
  | question
  | unqualified
deriving DecidableEq

/-- Numeric value of an ASCII digit character. -/
def digitVal (c : Char) : Nat := c.toNat - 48

/-- Matches `\d{4}`: four digit characters at the head of the input;
returns the numeric year and the rest of the input. -/
def fourDigits : List Char → Option (Nat × List Char)
  | a :: b :: c :: d :: rest =>
    if a.isDigit && b.isDigit && c.isDigit && d.isDigit then
      some (digitVal a * 1000 + digitVal b * 100 + digitVal c * 10 + digitVal d, rest)
    else none
  | _ => none

/-- Strips a literal pattern from the head of the input (character by
character), returning the rest on success. -/
def stripL : List Char → List Char → Option (List Char)
  | [], cs => some cs
  | _ :: _, [] => none
  | p :: ps, c :: cs => if c = p then stripL ps cs else none

/-- One backtracking candidate of the circa alternative: strip a literal
tail, then require `\d{4}`. -/
def tryCand (pat : List Char) (cs : List Char) : Option (Nat × List Char) :=
  match stripL pat cs with
  | some rest => fourDigits rest
  | none => none

/-- The backtracking order of `(?:a\.?|irca|) ?` after the initial `c`:
the alternation tries `a\.?` (greedy on the dot), then `irca`, then the
empty branch, each followed by the greedy optional space. -/
def circaCands : List (List Char) :=
  [['a', '.', ' '], ['a', '.'], ['a', ' '], ['a'],
   ['i', 'r', 'c', 'a', ' '], ['i', 'r', 'c', 'a'], [' '], []]

/-- Tries the candidates in backtracking order; first success wins. -/
def firstCand (cs : List Char) : List (List Char) → Option (Nat × List Char)
  | [] => none
  | p :: ps =>
    match tryCand p cs with
    | some r => some r
    | none => firstCand cs ps

/-- The circa alternative `c(?:a\.?|irca|) ?(?P<circa_date>\d{4})`. -/
def matchA : List Char → Option (Nat × List Char)
  | [] => none
  | c :: cs => if c = 'c' then firstCand cs circaCands else none

/-- The question alternative `(?P<question_date>\d{4})\?`. -/
def matchB (l : List Char) : Option (Nat × List Char) :=
  match fourDigits l with
  | some (y, rest) =>
    match rest with
    | c :: rest2 => if c = '?' then some (y, rest2) else none
    | [] => none
  | none => none

/-- The unqualified alternative `(?P<unqualified_date>\d{4})`. -/
def matchC (l : List Char) : Option (Nat × List Char) := fourDigits l

/-- Attempts the full pattern at the current position, trying the three
alternatives in the order they appear in the regex. -/
def matchAt (l : List Char) : Option (DateClass × Nat × List Char) :=
  match matchA l with
  | some (y, rest) => some (.circa, y, rest)
  | none =>
    match matchB l with
    | some (y, rest) => some (.question, y, rest)
    | none =>
      match matchC l with
      | some (y, rest) => some (.unqualified, y, rest)
      | none => none

/-- Left-to-right scan collecting all non-overlapping matches, as
`re.finditer` / `pandas.Series.str.extractall` do.  The fuel argument is
the length of the input; every step consumes at least one character, so
the fuel never runs out. -/
def extractGo : Nat → List Char → List (DateClass × Nat)
  | 0, _ => []
  | _ + 1, [] => []
  | n + 1, c :: cs =>
    match matchAt (c :: cs) with
    | some (cl, y, rest) => (cl, y) :: extractGo n rest
    | none => extractGo n cs

/-- All classified matches of the date regex in a character list. -/
def extractL (l : List Char) : List (DateClass × Nat) := extractGo l.length l

/-- The date extractor: all classified matches of the date regex in the
record's date text (in match order). -/
def extract (s : String) : List (DateClass × Nat) := extractL s.data

/-- Holds when the text contains four consecutive digit characters at its
head (a `\d{4}` match can start here). -/
def startsWithFour : List Char → Bool
  | a :: b :: c :: d :: _ => a.isDigit && b.isDigit && c.isDigit && d.isDigit
  | _ => false

/-- Holds when the text contains a run of four consecutive digit
characters anywhere (i.e. a 4-digit year substring). -/
def hasRun : List Char → Bool
  | [] => false
  | c :: cs => startsWithFour (c :: cs) || hasRun cs

/-- Helper: minimum of a list of years, `none` on the empty list
(modelling `min` over a float column that skips `NaN`). -/
def optMin : List Nat → Option Nat
  | [] => none
  | x :: xs =>
    match optMin xs with
    | none => some x
    | some m => some (min x m)

/-- Helper: maximum of a list of years, `none` on the empty list. -/
def optMax : List Nat → Option Nat
  | [] => none
  | x :: xs =>
    match optMax xs with
    | none => some x
    | some m => some (max x m)

/-- Pointwise minimum of two optional years, ignoring `none` (how the
row-wise `min` combines possibly-missing cells). -/
def omin : Option Nat → Option Nat → Option Nat
  | none, b => b
  | some x, none => some x
  | some x, some y => some (min x y)

/-- Pointwise maximum of two optional years, ignoring `none`. -/
def omax : Option Nat → Option Nat → Option Nat
  | none, b => b
  | some x, none => some x
  | some x, some y => some (max x y)

/-- The year of the first match of the given classification, if any:
`dates_df.pop(col).groupby(level=0).first()` keeps, per record, the first
non-null value of the column in match order. -/
def firstOfClass (cl : DateClass) (ms : List (DateClass × Nat)) : Option Nat :=
  ((ms.filter fun m => decide (m.1 = cl)).head?).map Prod.snd

/-- The years of all unqualified matches of a record, in match order. -/
def uqYears (ms : List (DateClass × Nat)) : List Nat :=
  (ms.filter fun m => decide (m.1 = .unqualified)).map Prod.snd

/-- The date reducer of `clean_nls_dates`, per record: the processed row
holds `question_date` (first question match), `circa_date` (first circa
match), `min_uq_date` and `max_uq_date` (min and max over the unqualified
matches); `min_date`/`max_date` are the row-wise min and max over the
non-null entries of that row (`processed_dates.min(axis=1)` /
`.max(axis=1)` skip `NaN`). -/
def reduceDates (ms : List (DateClass × Nat)) : Option Nat × Option Nat :=
  let q := firstOfClass .question ms
  let c := firstOfClass .circa ms
  let mnU := optMin (uqYears ms)
  let mxU := optMax (uqYears ms)
  let row := [q, c, mnU, mxU].filterMap id
  (optMin row, optMax row)

/-- The pooled year set the reducer actually draws its bounds from: the
first question match, the first circa match, and all unqualified
matches. -/
def pooledYears (ms : List (DateClass × Nat)) : List Nat :=
  (firstOfClass .question ms).toList ++ (firstOfClass .circa ms).toList ++ uqYears ms

/-- The textual circa markers the regex accepts (each optionally followed
by a single space, which the ` ?` of the pattern may consume). -/
def circaMarkers : List String := ["c", "c ", "ca", "ca ", "ca.", "ca. ", "circa", "circa "]

/-- The whole extract-and-reduce pass of `clean_nls_dates` on a record set
given as an association list from index keys to date texts: the output
frame is indexed by `df.index`, and the grouped match table
(`groupby(level=0)` with distinct labels) reduces each record
independently. -/
def cleanNlsDates (rs : List (String × String)) :
    List (String × (Option Nat × Option Nat)) :=
  rs.map fun r => (r.1, reduceDates (extract r.2))

/-- One row of the interval-augmented record table handed to
`filter_nls_date`: the two float date columns (with `NaN` as `none`) plus
the remaining catalog fields, opaque to the filter. -/
structure NlsRecord where
  min_date : Option ℚ
  max_date : Option ℚ
  payload : String
deriving DecidableEq

/-- The value passed as `filter_date`.  The Python signature is
`int | None` (`None` being the "undated" register sentinel), but the
function performs no validation of its own, so a malformed register
configuration can supply anything.  `year` is an int target; `numeric`
is any other finite numeric value, which the elementwise comparisons
accept silently — a bool compares as its numeric value, so `False` is
`numeric 0` and `True` is `numeric 1`, and a float such as `1850.5` is
`numeric (3701 / 2)`; `nan` is `float("nan")`, every ordered comparison
with which is elementwise `False`; `nonNumeric` is a value of
non-numeric type (e.g. a string), for which the ordered comparison with
a `float64` column raises `TypeError` in pandas. -/
inductive FilterTarget where
  | year : ℤ → FilterTarget
  | undated : FilterTarget
  | numeric : ℚ → FilterTarget
  | nan : FilterTarget
  | nonNumeric : String → FilterTarget

/-- The row-selection condition of the year branch of `filter_nls_date`:
`((df.min_date - mod_year) < filter_date) & ((df.max_date + mod_year) > filter_date)`
with `mod_year = date_range + 0.1`.  A `NaN` operand makes both pandas
comparisons `False`, so rows with a missing bound are never selected. -/
def yearPred (r : NlsRecord) (Y : ℤ) (dateRange : ℚ) : Bool :=
  match r.min_date, r.max_date with
  | some mn, some mx =>
    decide (mn - (dateRange + 1 / 10) < (Y : ℚ)) &&
      decide (mx + (dateRange + 1 / 10) > (Y : ℚ))
  | _, _ => false

/-- The same row-selection condition against an arbitrary finite numeric
`filter_date` value (a float or a bool from a malformed configuration):
the code's comparisons apply to it unchanged. -/
def numPred (r : NlsRecord) (v : ℚ) (dateRange : ℚ) : Bool :=
  match r.min_date, r.max_date with
  | some mn, some mx =>
    decide (mn - (dateRange + 1 / 10) < v) &&
      decide (mx + (dateRange + 1 / 10) > v)
  | _, _ => false

/-- The post-selection clamp applied to the `min_date` column of the
filtered copy: `lambda d: 1678. if d < 1678. else d` (a `NaN` compares
`False` and is returned unchanged, hence `Option.map`). -/
def clampMin (o : Option ℚ) : Option ℚ :=
  o.map fun d => if d < 1678 then 1678 else d

/-- The boolean-mask selection `df.loc[mask]` of the year branch, before
the clamp: the rows satisfying `yearPred`, in input order. -/
def selectYear (df : List (String × NlsRecord)) (Y : ℤ) (dateRange : ℚ) :
    List (String × NlsRecord) :=
  df.filter fun kr => yearPred kr.2 Y dateRange

/-- The undated-branch mask `df.min_date.isnull() & df.max_date.isnull()`. -/
def bothNull (r : NlsRecord) : Bool :=
  r.min_date.isNone && r.max_date.isNone

/-- `filter_nls_date`.  Any `filter_date` that is not `None` — valid or
not — reaches the year branch, which selects by the two comparisons and
rewrites the `min_date` column of the selected copy through `clampMin`;
the `None` (undated) branch selects the rows with both bounds null.
There is no validation: a finite numeric target of the wrong kind (a
float, or a bool comparing as 0 or 1) is processed silently just like an
int year; a `NaN` target makes both comparisons elementwise `False`, so
the mask selects nothing and an empty frame is returned silently; only a
target of non-numeric type makes the pandas ordered comparison raise
`TypeError` — modelled as `Except.error`. -/
def filterNlsDate (df : List (String × NlsRecord)) (target : FilterTarget)
    (dateRange : ℚ) : Except String (List (String × NlsRecord)) :=
  match target with
  | .year Y =>
    .ok ((selectYear df Y dateRange).map fun kr =>
      (kr.1, { kr.2 with min_date := clampMin kr.2.min_date }))
  | .numeric v =>
    .ok ((df.filter fun kr => numPred kr.2 v dateRange).map fun kr =>
      (kr.1, { kr.2 with min_date := clampMin kr.2.min_date }))
  | .nan =>
    .ok ((df.filter fun _ => false).map fun kr =>
      (kr.1, { kr.2 with min_date := clampMin kr.2.min_date }))
  | .undated => .ok (df.filter fun kr => bothNull kr.2)
  | .nonNumeric _ =>
    .error "TypeError: Invalid comparison between dtype=float64 and non-numeric filter_date"

/-- One `filter_nls_date` call as a transition on the caller's record set:
`df.loc[mask]` returns a new frame and the clamp assigns into that copy
(`register_df.loc[:, ...] = ...`), so the source frame is returned
unchanged alongside the call's result. -/
def filterNlsDateRun (df : List (String × NlsRecord)) (target : FilterTarget)
    (dateRange : ℚ) :
    List (String × NlsRecord) × Except String (List (String × NlsRecord)) :=
  (df, filterNlsDate df target dateRange)

/-- The state of the source record set after a sequence of
`filter_nls_date` calls (one per named register). -/
def runFilterCalls (df : List (String × NlsRecord))
    (calls : List (FilterTarget × ℚ)) : List (String × NlsRecord) :=
  calls.foldl (fun st c => (filterNlsDateRun st c.1 c.2).1) df

/-! ## Helper lemmas about the optional minimum and maximum -/

theorem optMin_cons (x : Nat) (xs : List Nat) :
    optMin (x :: xs) = omin (some x) (optMin xs) := by
  cases h : optMin xs <;> simp [optMin, omin, h]

theorem optMax_cons (x : Nat) (xs : List Nat) :
    optMax (x :: xs) = omax (some x) (optMax xs) := by
  cases h : optMax xs <;> simp [optMax, omax, h]

theorem omin_assoc (a b c : Option Nat) :
    omin (omin a b) c = omin a (omin b c) := by
  cases a <;> cases b <;> cases c <;> simp [omin, Nat.min_assoc]

theorem omax_assoc (a b c : Option Nat) :
    omax (omax a b) c = omax a (omax b c) := by
  cases a <;> cases b <;> cases c <;> simp [omax, Nat.max_assoc]

theorem optMin_append (l1 l2 : List Nat) :
    optMin (l1 ++ l2) = omin (optMin l1) (optMin l2) := by
  induction l1 with
  | nil => simp [optMin, omin]
  | cons x xs ih => simp [optMin_cons, ih, omin_assoc]

theorem optMax_append (l1 l2 : List Nat) :
    optMax (l1 ++ l2) = omax (optMax l1) (optMax l2) := by
  induction l1 with
  | nil => simp [optMax, omax]
  | cons x xs ih => simp [optMax_cons, ih, omax_assoc]

theorem optMin_toList (a : Option Nat) : optMin a.toList = a := by
  cases a <;> simp [optMin]

theorem optMax_toList (a : Option Nat) : optMax a.toList = a := by
  cases a <;> simp [optMax]

theorem optMin_eq_none_iff (l : List Nat) : optMin l = none ↔ l = [] := by
  cases l with
  | nil => simp [optMin]
  | cons x xs => cases h : optMin xs <;> simp [optMin, h]

theorem optMax_eq_none_iff (l : List Nat) : optMax l = none ↔ l = [] := by
  cases l with
  | nil => simp [optMax]
  | cons x xs => cases h : optMax xs <;> simp [optMax, h]

theorem optMin_le_optMax {l : List Nat} {a b : Nat}
    (hmin : optMin l = some a) (hmax : optMax l = some b) : a ≤ b := by
  induction l generalizing a b with
  | nil => simp [optMin] at hmin
  | cons x xs ih =>
    cases hxs : optMin xs with
    | none =>
      have hnil : xs = [] := (optMin_eq_none_iff xs).mp hxs
      subst hnil
      simp [optMin, optMax] at hmin hmax
      omega
    | some m =>
      cases hxs2 : optMax xs with
      | none =>
        have hnil : xs = [] := (optMax_eq_none_iff xs).mp hxs2
        subst hnil
        simp [optMin] at hxs
      | some M =>
        have hm : m ≤ M := ih hxs hxs2
        rw [optMin_cons, hxs] at hmin
        rw [optMax_cons, hxs2] at hmax
        simp [omin, omax] at hmin hmax
        omega

/-! ## The reducer's bounds are the min and max over the pooled years -/

theorem omin_min_max (l : List Nat) : omin (optMin l) (optMax l) = optMin l := by
  cases hmin : optMin l with
  | none =>
    have hnil : l = [] := (optMin_eq_none_iff l).mp hmin
    subst hnil
    simp [optMax, omin]
  | some a =>
    cases hmax : optMax l with
    | none =>
      have hnil : l = [] := (optMax_eq_none_iff l).mp hmax
      subst hnil
      simp [optMin] at hmin
    | some b =>
      have hab : a ≤ b := optMin_le_optMax hmin hmax
      simp [omin, Nat.min_eq_left hab]

theorem omax_min_max (l : List Nat) : omax (optMin l) (optMax l) = optMax l := by
  cases hmin : optMin l with
  | none =>
    have hnil : l = [] := (optMin_eq_none_iff l).mp hmin
    subst hnil
    simp [optMax, omax]
  | some a =>
    cases hmax : optMax l with
    | none =>
      have hnil : l = [] := (optMax_eq_none_iff l).mp hmax
      subst hnil
      simp [optMin] at hmin
    | some b =>
      have hab : a ≤ b := optMin_le_optMax hmin hmax
      simp [omax, Nat.max_eq_right hab]

theorem filterMap_id_four (a b c d : Option Nat) :
    [a, b, c, d].filterMap id = a.toList ++ b.toList ++ c.toList ++ d.toList := by
  cases a <;> cases b <;> cases c <;> cases d <;> rfl

theorem reduce_fst (ms : List (DateClass × Nat)) :
    (reduceDates ms).1 = optMin (pooledYears ms) := by
  simp only [reduceDates, pooledYears, filterMap_id_four, optMin_append,
    optMin_toList, omin_assoc, omin_min_max]

theorem reduce_snd (ms : List (DateClass × Nat)) :
    (reduceDates ms).2 = optMax (pooledYears ms) := by
  simp only [reduceDates, pooledYears, filterMap_id_four, optMax_append,
    optMax_toList, omax_assoc, omax_min_max]

theorem firstOfClass_cons_self (cl : DateClass) (y : Nat) (tl : List (DateClass × Nat)) :
    firstOfClass cl ((cl, y) :: tl) = some y := by
  simp [firstOfClass, List.filter]

theorem pooledYears_ne_nil {ms : List (DateClass × Nat)} (h : ms ≠ []) :
    pooledYears ms ≠ [] := by
  match ms, h with
  | (cl, y) :: tl, _ =>
    cases cl with
    | circa =>
      simp [pooledYears, firstOfClass_cons_self, List.append_eq_nil]
    | question =>
      simp [pooledYears, firstOfClass_cons_self, List.append_eq_nil]
    | unqualified =>
      simp [pooledYears, uqYears, List.filter, List.append_eq_nil]

/-! ## A match always contains a 4-digit run -/

theorem stripL_suffix : ∀ (p l r : List Char), stripL p l = some r → r <:+ l := by
  intro p
  induction p with
  | nil =>
    intro l r h
    simp only [stripL, Option.some.injEq] at h
    exact h ▸ List.suffix_refl l
  | cons a ps ih =>
    intro l r h
    cases l with
    | nil => simp [stripL] at h
    | cons c cs =>
      simp only [stripL] at h
      by_cases hc : c = a
      · rw [if_pos hc] at h
        exact (ih cs r h).trans (List.suffix_cons c cs)
      · rw [if_neg hc] at h
        exact absurd h (by simp)

theorem fourDigits_startsWithFour {l : List Char} {x : Nat × List Char}
    (h : fourDigits l = some x) : startsWithFour l = true := by
  match l with
  | [] => simp [fourDigits] at h
  | [a] => simp [fourDigits] at h
  | [a, b] => simp [fourDigits] at h
  | [a, b, c] => simp [fourDigits] at h
  | a :: b :: c :: d :: rest =>
    simp only [fourDigits] at h
    by_cases hd : (a.isDigit && b.isDigit && c.isDigit && d.isDigit) = true
    · simp [startsWithFour, hd]
    · rw [if_neg hd] at h
      exact absurd h (by simp)

theorem hasRun_of_startsWithFour {l : List Char} (h : startsWithFour l = true) :
    hasRun l = true := by
  cases l with
  | nil => simp [startsWithFour] at h
  | cons c cs => simp [hasRun, h]

theorem hasRun_of_suffix : ∀ {l r : List Char}, r <:+ l → hasRun r = true → hasRun l = true := by
  intro l
  induction l with
  | nil =>
    intro r hs hr
    rw [List.suffix_nil.mp hs] at hr
    simp [hasRun] at hr
  | cons c cs ih =>
    intro r hs hr
    rcases List.suffix_cons_iff.mp hs with heq | htl
    · rw [heq] at hr
      exact hr
    · simp [hasRun, ih htl hr]

theorem tryCand_hasRun {p cs : List Char} {x : Nat × List Char}
    (h : tryCand p cs = some x) : hasRun cs = true := by
  rw [tryCand] at h
  cases hst : stripL p cs with
  | none => rw [hst] at h; exact absurd h (by simp)
  | some rest =>
    rw [hst] at h
    exact hasRun_of_suffix (stripL_suffix p cs rest hst)
      (hasRun_of_startsWithFour (fourDigits_startsWithFour h))

theorem firstCand_hasRun {cs : List Char} {x : Nat × List Char} :
    ∀ cands, firstCand cs cands = some x → hasRun cs = true := by
  intro cands
  induction cands with
  | nil => intro h; simp [firstCand] at h
  | cons p ps ih =>
    intro h
    rw [firstCand] at h
    cases htc : tryCand p cs with
    | none => rw [htc] at h; exact ih h
    | some r => exact tryCand_hasRun htc

theorem matchA_hasRun {l : List Char} {x : Nat × List Char}
    (h : matchA l = some x) : hasRun l = true := by
  cases l with
  | nil => simp [matchA] at h
  | cons c cs =>
    rw [matchA] at h
    by_cases hc : c = 'c'
    · rw [if_pos hc] at h
      have := firstCand_hasRun circaCands h
      simp [hasRun, this]
    · rw [if_neg hc] at h
      exact absurd h (by simp)

theorem matchB_hasRun {l : List Char} {x : Nat × List Char}
    (h : matchB l = some x) : hasRun l = true := by
  rw [matchB] at h
  cases hfd : fourDigits l with
  | none => rw [hfd] at h; exact absurd h (by simp)
  | some yr => exact hasRun_of_startsWithFour (fourDigits_startsWithFour hfd)

theorem matchC_hasRun {l : List Char} {x : Nat × List Char}
    (h : matchC l = some x) : hasRun l = true :=
  hasRun_of_startsWithFour (fourDigits_startsWithFour h)

theorem matchAt_hasRun {l : List Char} {x : DateClass × Nat × List Char}
    (h : matchAt l = some x) : hasRun l = true := by
  rw [matchAt] at h
  cases hA : matchA l with
  | some r => exact matchA_hasRun hA
  | none =>
    rw [hA] at h
    cases hB : matchB l with
    | some r => exact matchB_hasRun hB
    | none =>
      rw [hB] at h
      cases hC : matchC l with
      | some r => exact matchC_hasRun hC
      | none => rw [hC] at h; exact absurd h (by simp)

theorem extractGo_nil_of_noRun : ∀ (n : Nat) (l : List Char), hasRun l = false →
    extractGo n l = [] := by
  intro n
  induction n with
  | zero => intro l _; rfl
  | succ n ih =>
    intro l h
    cases l with
    | nil => rfl
    | cons c cs =>
      have hm : matchAt (c :: cs) = none := by
        cases hma : matchAt (c :: cs) with
        | none => rfl
        | some x => rw [matchAt_hasRun hma] at h; exact absurd h (by simp)
      have hcs : hasRun cs = false := by
        have h2 := h
        simp only [hasRun, Bool.or_eq_false_iff] at h2
        exact h2.2
      rw [extractGo, hm]
      exact ih cs hcs

/-! ## Digit characters are distinct from the marker characters -/

theorem not_digit_char (c x : Char) (h : c.isDigit = true) (hx : x.isDigit = false) :
    c ≠ x := by
  intro e
  rw [e, hx] at h
  exact Bool.noConfusion h

/-! ## Key preservation of the clean pass -/

theorem cleanNlsDates_cons (p : String × String) (tl : List (String × String)) :
    cleanNlsDates (p :: tl) = (p.1, reduceDates (extract p.2)) :: cleanNlsDates tl := rfl

theorem cleanNlsDates_map_fst (rs : List (String × String)) :
    (cleanNlsDates rs).map Prod.fst = rs.map Prod.fst := by
  induction rs with
  | nil => rfl
  | cons p tl ih => rw [cleanNlsDates_cons, List.map_cons, List.map_cons, ih]

theorem cleanNlsDates_lookup (rs : List (String × String))
    (h : (rs.map Prod.fst).Nodup) (k d : String) (hmem : (k, d) ∈ rs) :
    (cleanNlsDates rs).lookup k = some (reduceDates (extract d)) := by
  induction rs with
  | nil => simp at hmem
  | cons p tl ih =>
    rw [List.map_cons, List.nodup_cons] at h
    rw [cleanNlsDates_cons]
    rcases List.mem_cons.mp hmem with heq | htl
    · rw [← heq]
      simp [List.lookup]
    · have hk : k ≠ p.1 := by
        intro e
        exact h.1 (e ▸ List.mem_map_of_mem Prod.fst htl)
      simp only [List.lookup, beq_eq_false_iff_ne.mpr hk]
      exact ih h.2 htl

/-! ## The register filter never mutates its input -/

theorem runFilterCalls_id (df : List (String × NlsRecord))
    (calls : List (FilterTarget × ℚ)) : runFilterCalls df calls = df := by
  induction calls generalizing df with
  | nil => rfl
  | cons c cs ih => exact ih df

/-! ## Claims -/

/-- Claim C1, counterexample: on a date text with two circa matches 1850
and 1800, the minimum year over all matches is 1800, yet the reducer
returns `min_date = 1850` — only the *first* circa match enters the pool,
so the claim that all matches are pooled for the interval bounds fails. -/
theorem reduce_pools_all_matches_cex :
    extract "c1850, c1800" = [(DateClass.circa, 1850), (DateClass.circa, 1800)] ∧
    optMin ((extract "c1850, c1800").map Prod.snd) = some 1800 ∧
    reduceDates (extract "c1850, c1800") = (some 1850, some 1850) ∧
    (reduceDates (extract "c1850, c1800")).1 ≠ some 1800 := by decide

/-- Claim C1 (amended): for every record whose date text yields a
non-empty match list, `min_date` and `max_date` are the minimum and
maximum over the pooled year set consisting of the first question match,
the first circa match, and all unqualified matches (later question or
circa matches are ignored), and that pooled set is non-empty. -/
theorem reduce_min_max_over_pooled (s : String) (h : extract s ≠ []) :
    reduceDates (extract s) =
      (optMin (pooledYears (extract s)), optMax (pooledYears (extract s))) ∧
    pooledYears (extract s) ≠ [] := by
  refine ⟨?_, pooledYears_ne_nil h⟩
  exact Prod.ext (reduce_fst _) (reduce_snd _)

/-- Claim C1, witness: the amended statement evaluated on the date text
of the counterexample. -/
theorem reduce_min_max_over_pooled_witness :
    extract "c1850, c1800" ≠ [] ∧
    reduceDates (extract "c1850, c1800") =
      (optMin (pooledYears (extract "c1850, c1800")),
       optMax (pooledYears (extract "c1850, c1800"))) ∧
    pooledYears (extract "c1850, c1800") ≠ [] :=
  ⟨by decide, reduce_min_max_over_pooled "c1850, c1800" (by decide)⟩

/-- Claim C2: the year-targeted register filter returns the clamped copy
of exactly the records satisfying
`min_date - (tolerance + 0.1) < Y` and `max_date + (tolerance + 0.1) > Y`
with strict inequalities, so boundary-equal records and records with a
null bound are excluded. -/
theorem filter_year_selects_exactly (df : List (String × NlsRecord)) (Y : ℤ) (t : ℚ) :
    filterNlsDate df (.year Y) t =
      .ok ((selectYear df Y t).map fun kr =>
        (kr.1, { kr.2 with min_date := clampMin kr.2.min_date })) ∧
    ∀ k r, (k, r) ∈ selectYear df Y t ↔
      ((k, r) ∈ df ∧ ∃ mn mx, r.min_date = some mn ∧ r.max_date = some mx ∧
        mn - (t + 1 / 10) < (Y : ℚ) ∧ mx + (t + 1 / 10) > (Y : ℚ)) := by
  refine ⟨rfl, ?_⟩
  intro k r
  rw [selectYear, List.mem_filter]
  refine and_congr_right fun _ => ?_
  cases hmn : r.min_date with
  | none => simp [yearPred, hmn]
  | some mn =>
    cases hmx : r.max_date with
    | none => simp [yearPred, hmn, hmx]
    | some mx => simp [yearPred, hmn, hmx]

/-- Claim C2, witness: the selection condition evaluated at the boundary
example of the specification — with target 1863 and tolerance 1, a record
with interval (1861, 1861) is not selected. -/
theorem filter_year_selects_exactly_witness :
    ("b", ({ min_date := some 1861, max_date := some 1861, payload := "x" } : NlsRecord)) ∈
      selectYear [("b", { min_date := some 1861, max_date := some 1861, payload := "x" })] 1863 1 ↔
    (("b", ({ min_date := some 1861, max_date := some 1861, payload := "x" } : NlsRecord)) ∈
      ([("b", ({ min_date := some 1861, max_date := some 1861, payload := "x" } : NlsRecord))] :
        List (String × NlsRecord)) ∧
      ∃ mn mx, (some (1861 : ℚ) = some mn) ∧ (some (1861 : ℚ) = some mx) ∧
        mn - (1 + 1 / 10) < (1863 : ℚ) ∧ mx + (1 + 1 / 10) > (1863 : ℚ)) :=
  (filter_year_selects_exactly
    [("b", { min_date := some 1861, max_date := some 1861, payload := "x" })] 1863 1).2
    "b" { min_date := some 1861, max_date := some 1861, payload := "x" }

/-- Claim C3: a selected record whose `min_date` is below 1678 appears in
the year-filter's output with `min_date` rewritten to exactly 1678, while
the source record set is returned unchanged by any number of register
filter calls (the clamp writes only to the filtered copy). -/
theorem filter_clamp_copy_and_frame (df : List (String × NlsRecord)) (Y : ℤ)
    (t : ℚ) (calls : List (FilterTarget × ℚ)) (k : String) (r : NlsRecord) (mn : ℚ)
    (h1 : (k, r) ∈ df) (h2 : yearPred r Y t = true)
    (h3 : r.min_date = some mn) (h4 : mn < 1678) :
    (∃ out, filterNlsDate df (.year Y) t = .ok out ∧
      (k, { r with min_date := some 1678 }) ∈ out) ∧
    runFilterCalls df calls = df := by
  refine ⟨⟨_, rfl, ?_⟩, runFilterCalls_id df calls⟩
  have hsel : (k, r) ∈ selectYear df Y t := List.mem_filter.mpr ⟨h1, h2⟩
  have hmap := List.mem_map_of_mem
    (fun kr : String × NlsRecord => (kr.1, { kr.2 with min_date := clampMin kr.2.min_date })) hsel
  have hcl : clampMin r.min_date = some 1678 := by
    rw [h3]; simp [clampMin, if_pos h4]
  simpa [hcl] using hmap

/-- Claim C3, witness: a record with interval (1500, 1600) selected for
target year 1550 appears in the output with `min_date = 1678`, and the
source set is unchanged after a further filter call. -/
theorem filter_clamp_copy_and_frame_witness :
    (("r1", ({ min_date := some 1500, max_date := some 1600, payload := "t" } : NlsRecord)) ∈
      ([("r1", ({ min_date := some 1500, max_date := some 1600, payload := "t" } : NlsRecord))] :
        List (String × NlsRecord))) ∧
    yearPred { min_date := some 1500, max_date := some 1600, payload := "t" } 1550 1 = true ∧
    ((1500 : ℚ) < 1678) ∧
    ((∃ out,
        filterNlsDate
          [("r1", { min_date := some 1500, max_date := some 1600, payload := "t" })]
          (.year 1550) 1 = .ok out ∧
        ("r1", ({ min_date := some 1678, max_date := some 1600, payload := "t" } : NlsRecord)) ∈ out) ∧
      runFilterCalls
        [("r1", { min_date := some 1500, max_date := some 1600, payload := "t" })]
        [(.undated, 1)] =
        [("r1", { min_date := some 1500, max_date := some 1600, payload := "t" })]) :=
  ⟨List.mem_singleton.mpr rfl,
   by simp only [yearPred, Bool.and_eq_true, decide_eq_true_eq]; norm_num,
   by norm_num,
   filter_clamp_copy_and_frame
     [("r1", { min_date := some 1500, max_date := some 1600, payload := "t" })] 1550 1
     [(.undated, 1)] "r1"
     { min_date := some 1500, max_date := some 1600, payload := "t" } 1500
     (List.mem_singleton.mpr rfl)
     (by simp only [yearPred, Bool.and_eq_true, decide_eq_true_eq]; norm_num)
     rfl
     (by norm_num)⟩

/-- Claim C4, counterexample: the circa marker match is case-sensitive —
"C1850" is classified as unqualified, not circa, because the regex has no
IGNORECASE flag and its literal characters are lower-case. -/
theorem extract_uppercase_not_circa_cex :
    extract "C1850" = [(DateClass.unqualified, 1850)] ∧
    ∀ m ∈ extract "C1850", m.1 ≠ DateClass.circa := by decide

/-- Claim C4 (amended): a 4-digit year preceded by one of the lower-case
markers "c", "ca", "ca.", "circa" plus an optional single space is
classified as circa; the marker match is case-sensitive ("C1850" is
unqualified), though "Circa 1850" still comes out circa because its
lower-case "ca " substring matches. -/
theorem extract_circa_markers :
    (∀ p ∈ circaMarkers, ∀ d1 d2 d3 d4 : Char,
      d1.isDigit = true → d2.isDigit = true → d3.isDigit = true → d4.isDigit = true →
      extract (p ++ String.mk [d1, d2, d3, d4]) =
        [(DateClass.circa,
          digitVal d1 * 1000 + digitVal d2 * 100 + digitVal d3 * 10 + digitVal d4)]) ∧
    extract "Circa 1850" = [(DateClass.circa, 1850)] := by
  constructor
  · intro p hp d1 d2 d3 d4 h1 h2 h3 h4
    have na : d1 ≠ 'a' := not_digit_char d1 'a' h1 (by decide)
    have nd : d1 ≠ '.' := not_digit_char d1 '.' h1 (by decide)
    have ns : d1 ≠ ' ' := not_digit_char d1 ' ' h1 (by decide)
    have ni : d1 ≠ 'i' := not_digit_char d1 'i' h1 (by decide)
    fin_cases hp <;>
      · show extractL _ = _
        simp [extractL, extractGo, matchAt, matchA, matchB, matchC, firstCand,
          circaCands, tryCand, stripL, fourDigits, h1, h2, h3, h4, na, nd, ns, ni]
  · decide

/-- Claim C4, witness: the amended statement evaluated at the marker "ca"
and the digits of 1850. -/
theorem extract_circa_markers_witness :
    ("ca" ∈ circaMarkers) ∧
    ('1'.isDigit = true) ∧ ('8'.isDigit = true) ∧
    ('5'.isDigit = true) ∧ ('0'.isDigit = true) ∧
    extract ("ca" ++ String.mk ['1', '8', '5', '0']) = [(DateClass.circa, 1850)] := by
  refine ⟨by decide, rfl, rfl, rfl, rfl, ?_⟩
  have h := extract_circa_markers.1 "ca" (by decide) '1' '8' '5' '0' rfl rfl rfl rfl
  rw [h]
  decide

/-- Claim C5: a date text containing no run of four consecutive digits
yields an empty match sequence (not an error), and the reducer then
returns the undated state `(null, null)`. -/
theorem extract_no_year_undated (s : String) (h : hasRun s.data = false) :
    extract s = [] ∧ reduceDates (extract s) = (none, none) := by
  have he : extract s = [] := extractGo_nil_of_noRun s.data.length s.data h
  exact ⟨he, by rw [he]; rfl⟩

/-- Claim C5, witness: evaluated on a concrete text without a 4-digit
year substring. -/
theorem extract_no_year_undated_witness :
    hasRun ("published in Edinburgh, undated").data = false ∧
    extract "published in Edinburgh, undated" = [] ∧
    reduceDates (extract "published in Edinburgh, undated") = (none, none) :=
  ⟨by decide, extract_no_year_undated "published in Edinburgh, undated" (by decide)⟩

/-- Claim C6: the undated register filter returns exactly the records
with both bounds null, each record unmodified (no clamp); a record with
exactly one null bound is excluded. -/
theorem filter_undated_selects_both_null (df : List (String × NlsRecord)) (t : ℚ) :
    filterNlsDate df .undated t = .ok (df.filter fun kr => bothNull kr.2) ∧
    ∀ k r, ((k, r) ∈ df.filter fun kr => bothNull kr.2) ↔
      ((k, r) ∈ df ∧ r.min_date = none ∧ r.max_date = none) := by
  refine ⟨rfl, ?_⟩
  intro k r
  rw [List.mem_filter]
  simp [bothNull, Option.isNone_iff_eq_none]

/-- Claim C6, witness: a record with `min_date` null but `max_date` 1850
is not selected by the undated filter. -/
theorem filter_undated_selects_both_null_witness :
    ("p", ({ min_date := none, max_date := some 1850, payload := "x" } : NlsRecord)) ∈
      (([("p", ({ min_date := none, max_date := some 1850, payload := "x" } : NlsRecord))] :
        List (String × NlsRecord)).filter fun kr => bothNull kr.2) ↔
    (("p", ({ min_date := none, max_date := some 1850, payload := "x" } : NlsRecord)) ∈
      ([("p", ({ min_date := none, max_date := some 1850, payload := "x" } : NlsRecord))] :
        List (String × NlsRecord)) ∧
      (none : Option ℚ) = none ∧ (some (1850 : ℚ) : Option ℚ) = none) :=
  (filter_undated_selects_both_null
    [("p", { min_date := none, max_date := some 1850, payload := "x" })] 1).2
    "p" { min_date := none, max_date := some 1850, payload := "x" }

/-- Claim C7: whenever the reducer produces both bounds for a record,
`min_date ≤ max_date`. -/
theorem reduce_min_le_max (s : String) (a b : Nat)
    (h1 : (reduceDates (extract s)).1 = some a)
    (h2 : (reduceDates (extract s)).2 = some b) : a ≤ b := by
  rw [reduce_fst] at h1
  rw [reduce_snd] at h2
  exact optMin_le_optMax h1 h2

/-- Claim C7, witness: evaluated on a two-match record. -/
theorem reduce_min_le_max_witness :
    (reduceDates (extract "c1850, reprinted 1872")).1 = some 1850 ∧
    (reduceDates (extract "c1850, reprinted 1872")).2 = some 1872 ∧
    (1850 : Nat) ≤ 1872 :=
  ⟨by decide, by decide,
    reduce_min_le_max "c1850, reprinted 1872" 1850 1872 (by decide) (by decide)⟩

/-- Claim C8: with arbitrary distinct record keys, the clean pass emits
exactly the input's keys in order, and each record's reduced interval is
attached at its own key. -/
theorem clean_dates_preserves_keys (rs : List (String × String))
    (h : (rs.map Prod.fst).Nodup) :
    (cleanNlsDates rs).map Prod.fst = rs.map Prod.fst ∧
    ∀ k d, (k, d) ∈ rs →
      (cleanNlsDates rs).lookup k = some (reduceDates (extract d)) :=
  ⟨cleanNlsDates_map_fst rs, fun k d hm => cleanNlsDates_lookup rs h k d hm⟩

/-- Claim C8, witness: evaluated on a record set with sparse,
non-contiguous keys. -/
theorem clean_dates_preserves_keys_witness :
    ((([("34:0", "1850"), ("40:2", "c1900, 1910?")] : List (String × String)).map Prod.fst).Nodup) ∧
    (cleanNlsDates [("34:0", "1850"), ("40:2", "c1900, 1910?")]).map Prod.fst =
      ([("34:0", "1850"), ("40:2", "c1900, 1910?")] : List (String × String)).map Prod.fst ∧
    (cleanNlsDates [("34:0", "1850"), ("40:2", "c1900, 1910?")]).lookup "40:2" =
      some (reduceDates (extract "c1900, 1910?")) :=
  ⟨by decide,
   (clean_dates_preserves_keys _ (by decide)).1,
   (clean_dates_preserves_keys _ (by decide)).2 "40:2" "c1900, 1910?" (by decide)⟩

/-- Claim C9 (code bug): `filter_nls_date` performs no target
validation, so a register target that is neither a valid year nor the
undated sentinel is not rejected.  A bool target `False` passes the
`is not None` check and is silently compared as the number 0 — exactly
the "silently treating the target as year 0" the specification forbids
— returning the same record list as the target year 0 (with the
filtered copy's `min_date` clamped); a float target such as 1850.5
silently filters around the fractional year; a NaN target silently
returns an empty record list.  Only a non-numeric target raises.  The
specification requires all of these to be fatal, so the claim is right
and the code lacks the required validation. -/
theorem filter_invalid_target_silent :
    filterNlsDate
        [("r", { min_date := some (1 / 2), max_date := some (1 / 2), payload := "x" })]
        (.numeric 0) 1 =
      .ok [("r", { min_date := some 1678, max_date := some (1 / 2), payload := "x" })] ∧
    filterNlsDate
        [("r", { min_date := some (1 / 2), max_date := some (1 / 2), payload := "x" })]
        (.year 0) 1 =
      .ok [("r", { min_date := some 1678, max_date := some (1 / 2), payload := "x" })] ∧
    filterNlsDate
        [("s", { min_date := some 1850, max_date := some 1851, payload := "y" })]
        (.numeric (3701 / 2)) 1 =
      .ok [("s", { min_date := some 1850, max_date := some 1851, payload := "y" })] ∧
    filterNlsDate
        [("s", { min_date := some 1850, max_date := some 1851, payload := "y" })]
        .nan 1 = .ok [] ∧
    ∀ e, filterNlsDate
        [("r", { min_date := some (1 / 2), max_date := some (1 / 2), payload := "x" })]
        (.numeric 0) 1 ≠ .error e := by
  have hp0 : numPred { min_date := some (1 / 2), max_date := some (1 / 2), payload := "x" } 0 1 = true := by
    simp only [numPred, Bool.and_eq_true, decide_eq_true_eq]
    constructor <;> norm_num
  have hy0 : yearPred { min_date := some (1 / 2), max_date := some (1 / 2), payload := "x" } 0 1 = true := by
    simp only [yearPred, Bool.and_eq_true, decide_eq_true_eq]
    constructor <;> norm_num
  have hpf : numPred { min_date := some 1850, max_date := some 1851, payload := "y" } (3701 / 2) 1 = true := by
    simp only [numPred, Bool.and_eq_true, decide_eq_true_eq]
    constructor <;> norm_num
  have hclamp : clampMin (some ((1 : ℚ) / 2)) = some 1678 := by
    simp only [clampMin, Option.map_some]
    norm_num
  have hnoclamp : clampMin (some (1850 : ℚ)) = some 1850 := by
    simp only [clampMin, Option.map_some]
    norm_num
  have hA : filterNlsDate
      [("r", { min_date := some (1 / 2), max_date := some (1 / 2), payload := "x" })]
      (.numeric 0) 1 =
      .ok [("r", { min_date := some 1678, max_date := some (1 / 2), payload := "x" })] := by
    simp only [filterNlsDate, List.filter, hp0, List.map_cons, List.map_nil, hclamp]
  refine ⟨hA, ?_, ?_, ?_, ?_⟩
  · simp only [filterNlsDate, selectYear, List.filter, hy0, List.map_cons, List.map_nil, hclamp]
  · simp only [filterNlsDate, List.filter, hpf, List.map_cons, List.map_nil, hnoclamp]
  · rfl
  · intro e h
    rw [hA] at h
    exact Except.noConfusion h

/-- Claim C10: after extraction and reduction, `min_date` is null exactly
when `max_date` is null — the reducer never produces a partially dated
record. -/
theorem reduce_no_partial_interval (s : String) :
    (reduceDates (extract s)).1 = none ↔ (reduceDates (extract s)).2 = none := by
  rw [reduce_fst, reduce_snd, optMin_eq_none_iff, optMax_eq_none_iff]

/-- Claim C10, witness: evaluated on a dated record. -/
theorem reduce_no_partial_interval_witness :
    (reduceDates (extract "c1900")).1 = none ↔ (reduceDates (extract "c1900")).2 = none :=
  reduce_no_partial_interval "c1900"

end Promprint
